import Mathlib

/-!
Shallow embedding of the hydra-x trading core (risk engine, execution
engine, support/resistance detector, price-action scorer, breakout
detector), translated from the Python sources in src/modules, together
with theorems settling the specification claims about them.

Real-valued quantities of the Python code are modelled as rationals;
Python `round(x, 8)` is modelled as decimal round-half-to-even at eight
places.  File reads that may fail are modelled by an explicit
`DiskFile` outcome (missing, corrupt, or parsed content); random draws
are modelled by explicit unit-interval samples or oracle functions.
-/

/-- Round-half-to-even of a rational to an integer (the rounding mode of
Python `round`). -/
def roundHalfEven (q : ℚ) : ℤ :=
  let f : ℤ := ⌊q⌋
  if q - f < 1/2 then f
  else if q - f > 1/2 then f + 1
  else if f % 2 = 0 then f else f + 1

/-- Model of Python `round(x, 8)`: round half-to-even at 8 decimal places. -/
def round8 (q : ℚ) : ℚ :=
  (roundHalfEven (q * 100000000) : ℚ) / 100000000

/-- Python `max` over a list of rationals (0 on the empty list, which the
code never hits). -/
def listMax : List ℚ → ℚ
  | [] => 0
  | x :: xs => xs.foldl max x

/-- Python `min` over a list of rationals (0 on the empty list, which the
code never hits). -/
def listMin : List ℚ → ℚ
  | [] => 0
  | x :: xs => xs.foldl min x

/-- `np.mean` over a list of rationals. -/
def listMean (l : List ℚ) : ℚ := l.sum / l.length

/- ## Risk engine (src/modules/risk.py) -/

/-- `RiskManager.position_size`: zero when entry equals stop loss, else
the risk amount over the stop distance, floored at the exchange minimum
lot size and rounded to 8 decimal places. -/
def position_size (account_balance risk_percent exchange_min_lot_size
    entry_price stop_loss : ℚ) : ℚ :=
  if entry_price = stop_loss then 0
  else
    let risk_amount := account_balance * (risk_percent / 100)
    let sl_distance := |entry_price - stop_loss|
    let calculated_size := risk_amount / sl_distance
    let final_size := max calculated_size exchange_min_lot_size
    round8 final_size

/-- `RiskManager.spread_filter`: false on non-positive or crossed quotes,
else true exactly when the spread in points is strictly below the
configured maximum. -/
def spread_filter (max_spread_points bid ask : ℚ) : Bool :=
  if bid ≤ 0 ∨ ask ≤ 0 ∨ bid > ask then false
  else decide ((ask - bid) / bid * 10000 < max_spread_points)

/-- The rejection predicate exactly as the specification words it: the
spread in points strictly exceeds the ceiling, or the quotes are
non-positive or crossed. -/
def spread_rejects_spec (max_spread_points bid ask : ℚ) : Prop :=
  (ask - bid) / bid * 10000 > max_spread_points ∨ bid ≤ 0 ∨ ask ≤ 0 ∨ bid > ask

instance (m b a : ℚ) : Decidable (spread_rejects_spec m b a) := by
  unfold spread_rejects_spec; infer_instance

/-- Schema of `daily_pnl.json` (dates as abstract naturals). -/
structure DailyData where
  date : ℕ
  cumulative_pnl : ℚ
  trades_today : ℕ
  winning_trades : ℕ
  losing_trades : ℕ
deriving DecidableEq

/-- Outcome of reading a durable JSON file: absent, unreadable or
unparseable, or successfully parsed content. -/
inductive DiskFile (α : Type) where
  | missing : DiskFile α
  | corrupt : DiskFile α
  | ok : α → DiskFile α
deriving DecidableEq

/-- The fresh daily record written by `RiskManager._reset_daily_pnl`. -/
def freshDaily (today : ℕ) : DailyData :=
  { date := today, cumulative_pnl := 0, trades_today := 0,
    winning_trades := 0, losing_trades := 0 }

/-- `RiskManager._load_daily_pnl`, returning the in-memory daily
accumulation: the stored cumulative PnL when the file parses and its date
is today, and 0 (with a reset) on a missing file, a corrupt file, or a
date rollover. -/
def load_daily_pnl (today : ℕ) : DiskFile DailyData → ℚ
  | DiskFile.missing => 0
  | DiskFile.corrupt => 0
  | DiskFile.ok d => if d.date = today then d.cumulative_pnl else 0

/-- Mutable state of one `RiskManager` instance: the consecutive-loss
counter, the in-memory daily loss accumulation, and the on-disk daily
PnL file. -/
structure RMState where
  consecutive_loss_counter : ℕ
  daily_loss_accumulation : ℚ
  daily_pnl_file : DiskFile DailyData
deriving DecidableEq

/-- `RiskManager.track_daily_pnl`: add the realized PnL to the in-memory
accumulation and fold it into the daily file (re-created fresh when the
file does not parse). -/
def track_daily_pnl (today : ℕ) (pnl : ℚ) (s : RMState) : RMState :=
  let data := match s.daily_pnl_file with
    | DiskFile.ok d => d
    | _ => freshDaily today
  let data' := { data with
    cumulative_pnl := round8 (data.cumulative_pnl + pnl),
    trades_today := data.trades_today + 1,
    winning_trades := if pnl > 0 then data.winning_trades + 1 else data.winning_trades,
    losing_trades := if pnl > 0 then data.losing_trades else data.losing_trades + 1 }
  { s with daily_loss_accumulation := s.daily_loss_accumulation + pnl,
           daily_pnl_file := DiskFile.ok data' }

/-- `RiskManager.check_daily_loss_limit`: trading is allowed unless the
accumulation has fallen to or below minus the daily loss budget. -/
def check_daily_loss_limit (account_balance max_daily_loss_pct accumulation : ℚ) : Bool :=
  let max_daily_loss := account_balance * (max_daily_loss_pct / 100)
  if accumulation ≤ -max_daily_loss then false else true

/-- `RiskManager.increment_consecutive_losses`: bump the counter and
report whether trading may continue (false once the limit is reached). -/
def increment_consecutive_losses (max_consecutive_losses counter : ℕ) : Bool × ℕ :=
  let c := counter + 1
  (if c ≥ max_consecutive_losses then false else true, c)

/-- `RiskManager.slippage_tracker` (pure part): acceptable iff the
absolute relative slippage in percent stays below 0.05. -/
def slippage_tracker (expected_price actual_price : ℚ) : Bool × ℚ :=
  if expected_price ≤ 0 then (false, 0)
  else
    let slippage_pct := |actual_price - expected_price| / expected_price * 100
    (decide (slippage_pct < 5/100), slippage_pct)

/-- The operations callable on a `RiskManager` instance, as they touch its
mutable state. -/
inductive RMOp where
  | posSize : ℚ → ℚ → RMOp
  | spreadCheck : ℚ → ℚ → RMOp
  | trackPnl : ℚ → RMOp
  | checkDaily : RMOp
  | increment : RMOp
  | reset : RMOp
  | slippage : ℚ → ℚ → RMOp
  | status : RMOp
  | loadDaily : RMOp
deriving DecidableEq

/-- State transition of each `RiskManager` operation.  Query operations
(`position_size`, `spread_filter`, `check_daily_loss_limit`,
`slippage_tracker`, `get_status`) leave the state unchanged;
`increment_consecutive_losses` bumps the counter;
`reset_consecutive_losses` zeroes it; `track_daily_pnl` and
`_load_daily_pnl` touch only the daily accumulation and file. -/
def rmStep (today max_consecutive_losses : ℕ) : RMOp → RMState → RMState
  | RMOp.posSize _ _, s => s
  | RMOp.spreadCheck _ _, s => s
  | RMOp.trackPnl p, s => track_daily_pnl today p s
  | RMOp.checkDaily, s => s
  | RMOp.increment, s =>
      { s with consecutive_loss_counter :=
          (increment_consecutive_losses max_consecutive_losses s.consecutive_loss_counter).2 }
  | RMOp.reset, s => { s with consecutive_loss_counter := 0 }
  | RMOp.slippage _ _, s => s
  | RMOp.status, s => s
  | RMOp.loadDaily, s =>
      let acc := load_daily_pnl today s.daily_pnl_file
      let file := match s.daily_pnl_file with
        | DiskFile.ok d => if d.date = today then DiskFile.ok d
                           else DiskFile.ok (freshDaily today)
        | _ => DiskFile.ok (freshDaily today)
      { s with daily_loss_accumulation := acc, daily_pnl_file := file }

/- ## Execution engine (src/modules/execution.py) -/

/-- A durable trade record (`trade_history.json` entries); the readers
never inspect the fields. -/
structure TradeRec where
  symbol : ℕ
  entry_price : ℚ
  exit_price : ℚ
  pnl : ℚ
deriving DecidableEq

/-- A durable open-position record (`open_positions.json` entries). -/
structure PositionRec where
  symbol : ℕ
  direction : ℕ
  entry_price : ℚ
  position_size : ℚ
deriving DecidableEq

/-- `StateManager.load_trade_history`: the parsed list when the file is
present and parseable, the empty list otherwise. -/
def load_trade_history : DiskFile (List TradeRec) → List TradeRec
  | DiskFile.missing => []
  | DiskFile.corrupt => []
  | DiskFile.ok ts => ts

/-- `StateManager.load_open_positions`: the parsed list when the file is
present and parseable, the empty list otherwise. -/
def load_open_positions : DiskFile (List PositionRec) → List PositionRec
  | DiskFile.missing => []
  | DiskFile.corrupt => []
  | DiskFile.ok ps => ps

/-- Model of `random.uniform a b`: the draw determined by a unit-interval
sample `u`. -/
def uniformDraw (a b u : ℚ) : ℚ := a + (b - a) * u

/-- `OrderExecutor.randomize_partial_close_percentages`, with the two
uniform draws made explicit as unit samples: target-1 in [0.28, 0.35],
target-2 in [0.38, 0.42], runner = 1 − target1 − target2. -/
def randomizePartialClosePercentages (u1 u2 : ℚ) : ℚ × ℚ × ℚ :=
  let tp1_pct := uniformDraw (28/100) (35/100) u1
  let tp2_pct := uniformDraw (38/100) (42/100) u2
  let runner_pct := 1 - tp1_pct - tp2_pct
  (tp1_pct, tp2_pct, runner_pct)

/-- Result of one submission protocol run: the order (if any attempt
succeeded), the number of attempts made, and the list of waits inserted
between consecutive attempts. -/
structure RetryOutcome (α : Type) where
  order : Option α
  attempts : ℕ
  delays : List ℚ
deriving DecidableEq

/-- The retry loop of `OrderExecutor.submit_order_with_retry`, from
attempt number `a` with `fuel` attempts remaining: `call` is the exchange
`create_order` oracle (`none` = the call raised), `jit` the inter-retry
jitter drawn on each failed non-final attempt.  On failure of attempt
`a < maxRetries` the loop waits
`min (initial_delay * backoff_multiplier ^ (a-1)) max_delay + jit a`
and retries; failure of the final attempt returns no order. -/
def retryLoop (α : Type) (call : ℕ → Option α) (jit : ℕ → ℚ)
    (initial_delay max_delay backoff_multiplier : ℚ) :
    ℕ → ℕ → RetryOutcome α
  | 0, _ => ⟨none, 0, []⟩
  | fuel + 1, a =>
    match call a with
    | some o => ⟨some o, 1, []⟩
    | none =>
      if fuel = 0 then ⟨none, 1, []⟩
      else
        let d := min (initial_delay * backoff_multiplier ^ (a - 1)) max_delay + jit a
        let rest := retryLoop α call jit initial_delay max_delay backoff_multiplier fuel (a + 1)
        ⟨rest.order, rest.attempts + 1, d :: rest.delays⟩

/-- `OrderExecutor.submit_order_with_retry` (the retry protocol, after the
parameter randomization and the pre-submission delay): run the loop from
attempt 1 with `max_retries` attempts available. -/
def submitOrderWithRetry (α : Type) (call : ℕ → Option α) (jit : ℕ → ℚ)
    (max_retries : ℕ) (initial_delay max_delay backoff_multiplier : ℚ) :
    RetryOutcome α :=
  retryLoop α call jit initial_delay max_delay backoff_multiplier max_retries 1

/- ## Support/resistance detector (src/modules/support_resistance.py) -/

/-- One OHLC candle (`open` is a Lean keyword, hence `open_price`). -/
structure Candle where
  open_price : ℚ
  high : ℚ
  low : ℚ
  close : ℚ
deriving DecidableEq

/-- The two swing kinds, also used as zone kinds. -/
inductive SwingKind where
  | high : SwingKind
  | low : SwingKind
deriving DecidableEq

/-- A detected swing point. -/
structure Swing where
  price : ℚ
  kind : SwingKind
  idx : ℕ
deriving DecidableEq

/-- A clustered support/resistance zone. -/
structure Zone where
  price : ℚ
  kind : SwingKind
  touches : ℕ
  strength : ℚ
deriving DecidableEq

/-- `SupportResistanceDetector.detect_swings`: candle `i` (with `lookback`
candles on both sides) is a swing high iff its high strictly exceeds every
high within the symmetric window, and a swing low by the mirror condition
on lows; a swing high entry precedes a swing low entry at the same index. -/
def detect_swings (lookback : ℕ) (candles : List Candle) : List Swing :=
  let highs := candles.map (fun c => c.high)
  let lows := candles.map (fun c => c.low)
  let n := candles.length
  (List.range n).flatMap (fun i =>
    if lookback ≤ i ∧ i + lookback < n then
      let isHigh := (List.range lookback).all (fun j =>
        decide (highs.getD (i - (j + 1)) 0 < highs.getD i 0) &&
        decide (highs.getD (i + (j + 1)) 0 < highs.getD i 0))
      let isLow := (List.range lookback).all (fun j =>
        decide (lows.getD i 0 < lows.getD (i - (j + 1)) 0) &&
        decide (lows.getD i 0 < lows.getD (i + (j + 1)) 0))
      (if isHigh then [{ price := highs.getD i 0, kind := SwingKind.high, idx := i }] else []) ++
      (if isLow then [{ price := lows.getD i 0, kind := SwingKind.low, idx := i }] else [])
    else [])

/-- Greedy grouping of price-sorted swings: a swing joins the current group
while its price is within `tol × anchorPrice` of the group's anchor (first
member); otherwise a new group starts.  Each group is the in-order list of
its member prices. -/
def clusterRun (tol : ℚ) : List ℚ → ℚ → List ℚ → List (List ℚ)
  | [], _, cur => [cur.reverse]
  | p :: rest, anchor, cur =>
      if |p - anchor| ≤ anchor * tol then clusterRun tol rest anchor (p :: cur)
      else cur.reverse :: clusterRun tol rest p [p]

/-- One zone from one cluster: mean price, touch count = group size,
strength = min 1 (size / 5). -/
def zoneOfCluster (kind : SwingKind) (cluster : List ℚ) : Zone :=
  { price := listMean cluster, kind := kind, touches := cluster.length,
    strength := min 1 ((cluster.length : ℚ) / 5) }

/-- Zones of one swing kind: sort the prices, group greedily, make a zone
from each group (no zones when there are no swings of the kind). -/
def zonesOfKind (tol : ℚ) (kind : SwingKind) (swings : List Swing) : List Zone :=
  let prices := ((swings.filter (fun s => s.kind = kind)).map
    (fun s => s.price)).insertionSort (fun a b => a ≤ b)
  match prices with
  | [] => []
  | p :: rest => (clusterRun tol rest p [p]).map (zoneOfCluster kind)

/-- `SupportResistanceDetector.cluster_zones`: cluster the swing highs,
then the swing lows, and keep the zones with at least `min_touches`
touches. -/
def cluster_zones (tol : ℚ) (min_touches : ℕ) (swings : List Swing) : List Zone :=
  ((zonesOfKind tol SwingKind.high swings) ++ (zonesOfKind tol SwingKind.low swings)).filter
    (fun z => min_touches ≤ z.touches)

/-- Mutable state of one `SupportResistanceDetector`: candles accumulated
since the last rebuild, and the cached zone list. -/
structure SRState where
  candle_count : ℕ
  zones : List Zone
deriving DecidableEq

/-- `SupportResistanceDetector.update_zones`: add the submitted candles to
the counter; when it reaches 100, or when no zones are cached, rebuild the
zone list from the submitted candles and reset the counter, else keep the
cached zones (which the call returns as `.zones`). -/
def update_zones (lookback : ℕ) (tol : ℚ) (min_touches : ℕ)
    (s : SRState) (candles : List Candle) : SRState :=
  let cnt := s.candle_count + candles.length
  if 100 ≤ cnt ∨ s.zones = [] then
    { candle_count := 0, zones := cluster_zones tol min_touches (detect_swings lookback candles) }
  else
    { candle_count := cnt, zones := s.zones }

/- ## Price-action confirmation scorer (src/modules/price_action.py) -/

instance : Inhabited Candle := ⟨⟨0, 0, 0, 0⟩⟩

/-- Python `candles[-k]` (defined only when `k ≤ len`, where the code
indexes). -/
def atEnd (candles : List Candle) (k : ℕ) : Candle :=
  candles.getD (candles.length - k) default

/-- Python `values[-k]` on a float list. -/
def qAtEnd (values : List ℚ) (k : ℕ) : ℚ :=
  values.getD (values.length - k) 0

/-- The `(detected, confidence)` contract shared by all pattern
detectors. -/
structure PatternResult where
  detected : Bool
  confidence : ℚ
deriving DecidableEq

/-- `PriceActionAnalyzer.detect_engulfing`. -/
def detect_engulfing (candles : List Candle) : PatternResult :=
  if candles.length < 2 then ⟨false, 0⟩
  else
    let prev := atEnd candles 2
    let curr := atEnd candles 1
    let prev_body := |prev.close - prev.open_price|
    let curr_body := |curr.close - curr.open_price|
    let prev_range := prev.high - prev.low
    if prev_range = 0 then ⟨false, 0⟩
    else if curr.high > prev.high ∧ curr.low < prev.low ∧ prev_body < curr_body then
      ⟨true, min 1 (curr_body / prev_range)⟩
    else ⟨false, 0⟩

/-- `PriceActionAnalyzer.detect_pinbar`. -/
def detect_pinbar (candles : List Candle) : PatternResult :=
  if candles.length < 1 then ⟨false, 0⟩
  else
    let candle := atEnd candles 1
    let body := |candle.close - candle.open_price|
    let full_range := candle.high - candle.low
    if full_range = 0 then ⟨false, 0⟩
    else
      let body_ratio := body / full_range
      if body_ratio < 3/10 then
        let long_wick_ratio :=
          if candle.open_price < candle.close then (candle.high - candle.close) / full_range
          else (candle.close - candle.low) / full_range
        if 4/10 < long_wick_ratio then
          ⟨true, min 1 long_wick_ratio * (1 - body_ratio)⟩
        else ⟨false, 0⟩
      else ⟨false, 0⟩

/-- `PriceActionAnalyzer.detect_morning_star`. -/
def detect_morning_star (candles : List Candle) : PatternResult :=
  if candles.length < 3 then ⟨false, 0⟩
  else
    let c1 := atEnd candles 3
    let c2 := atEnd candles 2
    let c3 := atEnd candles 1
    let c1_down := c1.close < c1.open_price
    let c2_small := |c2.close - c2.open_price| < (c1.high - c1.low) * (1/2)
    let c3_up := c3.open_price < c3.close
    if c1_down ∧ c2_small ∧ c3_up then
      ⟨true, max (1/2) (min 1 ((c3.close - c1.open_price) / (c1.high - c1.low)))⟩
    else ⟨false, 0⟩

/-- `PriceActionAnalyzer.detect_evening_star`. -/
def detect_evening_star (candles : List Candle) : PatternResult :=
  if candles.length < 3 then ⟨false, 0⟩
  else
    let c1 := atEnd candles 3
    let c2 := atEnd candles 2
    let c3 := atEnd candles 1
    let c1_up := c1.open_price < c1.close
    let c2_small := |c2.close - c2.open_price| < (c1.high - c1.low) * (1/2)
    let c3_down := c3.close < c3.open_price
    if c1_up ∧ c2_small ∧ c3_down then
      ⟨true, max (1/2) (min 1 ((c1.close - c3.open_price) / (c1.high - c1.low)))⟩
    else ⟨false, 0⟩

/-- `PriceActionAnalyzer.detect_break_of_structure`. -/
def detect_break_of_structure (candles : List Candle) : PatternResult :=
  if candles.length < 5 then ⟨false, 0⟩
  else
    let recent := candles.drop (candles.length - 5)
    let highs := recent.map (fun c => c.high)
    let lows := recent.map (fun c => c.low)
    let swing_high := listMax highs.dropLast
    let swing_low := listMin lows.dropLast
    let current := atEnd candles 1
    let bos_up := swing_high < current.close ∧ current.open_price < current.close
    let bos_down := current.close < swing_low ∧ current.close < current.open_price
    if bos_up then ⟨true, min 1 ((current.close - swing_high) / swing_high)⟩
    else if bos_down then ⟨true, min 1 ((swing_low - current.close) / swing_low)⟩
    else ⟨false, 0⟩

/-- `PriceActionAnalyzer.detect_fair_value_gap`. -/
def detect_fair_value_gap (candles : List Candle) : PatternResult :=
  if candles.length < 2 then ⟨false, 0⟩
  else
    let prev := atEnd candles 2
    let curr := atEnd candles 1
    let gap_up := prev.high < curr.low
    let gap_down := curr.high < prev.low
    if gap_up then ⟨true, min 1 ((curr.low - prev.high) / prev.high)⟩
    else if gap_down then ⟨true, min 1 ((prev.low - curr.high) / prev.low)⟩
    else ⟨false, 0⟩

/-- `PriceActionAnalyzer.detect_ema_retest`. -/
def detect_ema_retest (candles : List Candle) (ema_values : List ℚ) : PatternResult :=
  if candles.length < 10 ∨ ema_values.length < 2 then ⟨false, 0⟩
  else
    let prev_ema := qAtEnd ema_values 2
    let curr_ema := qAtEnd ema_values 1
    let current := atEnd candles 1
    let previous := atEnd candles 2
    let prev_above := prev_ema < previous.close
    let curr_below := current.close < curr_ema
    let curr_above := curr_ema < current.close
    let retest_down := prev_above ∧ (curr_below ∨ |current.close - curr_ema| < curr_ema * (5/1000))
    let retest_up := ¬prev_above ∧ (curr_above ∨ |current.close - curr_ema| < curr_ema * (5/1000))
    if retest_down ∨ retest_up then
      let distance := |current.close - curr_ema| / curr_ema
      ⟨true, 1 - min 1 (distance / (1/100))⟩
    else ⟨false, 0⟩

/-- The zone scan of `PriceActionAnalyzer.detect_sr_retest`: the first
zone whose price the current close is within 1% of, with the previous and
current closes on opposite sides of it, wins. -/
def srScan (current previous : Candle) : List Zone → PatternResult
  | [] => ⟨false, 0⟩
  | z :: zs =>
      let tolerance := z.price * (1/100)
      let prev_above := z.price < previous.close
      let curr_near := |current.close - z.price| < tolerance
      if curr_near ∧ prev_above ≠ (z.price < current.close) then
        ⟨true, min 1 (z.strength * (3/2))⟩
      else srScan current previous zs

/-- `PriceActionAnalyzer.detect_sr_retest`. -/
def detect_sr_retest (candles : List Candle) (sr_zones : List Zone) : PatternResult :=
  if candles.length < 2 ∨ sr_zones = [] then ⟨false, 0⟩
  else srScan (atEnd candles 1) (atEnd candles 2) sr_zones

/-- The names of the eight price-action patterns. -/
inductive PName where
  | engulfing | pinbar | morning_star | evening_star | bos | fvg | ema_retest | sr_retest
deriving DecidableEq

/-- The pattern list built by
`PriceActionAnalyzer.calculate_confirmation_score`: the six always-run
detectors, then the moving-average retest when a non-empty average series
was supplied, then the zone retest when a non-empty zone list was
supplied. -/
def evaluatedPatterns (candles : List Candle) (sr_zones : Option (List Zone))
    (ema_values : Option (List ℚ)) : List (PName × PatternResult) :=
  ([(PName.engulfing, detect_engulfing candles),
    (PName.pinbar, detect_pinbar candles),
    (PName.morning_star, detect_morning_star candles),
    (PName.evening_star, detect_evening_star candles),
    (PName.bos, detect_break_of_structure candles),
    (PName.fvg, detect_fair_value_gap candles)]
   ++ (match ema_values with
       | some es => if 0 < es.length then [(PName.ema_retest, detect_ema_retest candles es)] else []
       | none => [])
   ++ (match sr_zones with
       | some zs => if 0 < zs.length then [(PName.sr_retest, detect_sr_retest candles zs)] else []
       | none => []))

/-- Result record of `calculate_confirmation_score`. -/
structure ConfirmationResult where
  confirmation_count : ℕ
  confirmation_score : ℚ
  min_met : Bool
  patterns : List (PName × ℚ)
deriving DecidableEq

/-- `PriceActionAnalyzer.calculate_confirmation_score`: count the detected
patterns and divide the sum of their confidences by
`max 1 (number of evaluated patterns)`. -/
def calculate_confirmation_score (min_confirmations : ℕ) (candles : List Candle)
    (sr_zones : Option (List Zone)) (ema_values : Option (List ℚ)) : ConfirmationResult :=
  let patterns := evaluatedPatterns candles sr_zones ema_values
  let confirmations := patterns.filter (fun p => p.2.detected)
  let confirmation_count := confirmations.length
  let confirmation_score :=
    (confirmations.map (fun p => p.2.confidence)).sum / ((max 1 patterns.length : ℕ) : ℚ)
  { confirmation_count := confirmation_count,
    confirmation_score := confirmation_score,
    min_met := decide (min_confirmations ≤ confirmation_count),
    patterns := confirmations.map (fun p => (p.1, p.2.confidence)) }

/- ## Breakout detector (src/modules/breakout.py) -/

/-- True range of candle `i` within the list (the previous close being the
candle's own close at `i = 0`). -/
def trueRange (candles : List Candle) (i : ℕ) : ℚ :=
  let c := candles.getD i default
  let close_prev := if 0 < i then (candles.getD (i - 1) default).close else c.close
  max (c.high - c.low) (max |c.high - close_prev| |c.low - close_prev|)

/-- `BreakoutEngine.calculate_atr`: `none` below `period` candles, else
the mean of the last `period` true ranges. -/
def calculate_atr (candles : List Candle) (period : ℕ) : Option ℚ :=
  if candles.length < period then none
  else
    let tr_values := (List.range candles.length).map (trueRange candles)
    some (listMean (tr_values.drop (tr_values.length - period)))

/-- Consecutive non-increase, as the Python `all(r[i] >= r[i+1] ...)`. -/
def listNonIncreasing : List ℚ → Bool
  | [] => true
  | [_] => true
  | a :: b :: rest => decide (b ≤ a) && listNonIncreasing (b :: rest)

/-- Result record of `detect_compression`. -/
structure CompressionResult where
  compressed : Bool
  candle_count : ℕ
  avg_atr : ℚ
deriving DecidableEq

/-- `BreakoutEngine.detect_compression`: true ranges of all candles but
the last, compressed iff the most recent `compression_window` of them are
non-increasing. -/
def detect_compression (compression_window : ℕ) (candles : List Candle) : CompressionResult :=
  if candles.length < compression_window then ⟨false, 0, 0⟩
  else
    let atr_values := (List.range (candles.length - 1)).map (trueRange candles)
    if atr_values.length < compression_window then ⟨false, 0, 0⟩
    else
      let recent_atr := atr_values.drop (atr_values.length - compression_window)
      ⟨listNonIncreasing recent_atr, compression_window, listMean recent_atr⟩

/-- Result record of `detect_atr_spike`. -/
structure SpikeResult where
  spike : Bool
  current_atr : ℚ
  avg_atr : ℚ
  ratio : ℚ
deriving DecidableEq

/-- `BreakoutEngine.detect_atr_spike`: 14-period ATR over the last 20
candles against a 50-period baseline; spike iff the quotient strictly
exceeds the threshold. -/
def detect_atr_spike (atr_threshold : ℚ) (candles : List Candle) : SpikeResult :=
  if candles.length < 50 then ⟨false, 0, 0, 0⟩
  else
    match calculate_atr (candles.drop (candles.length - 20)) 14, calculate_atr candles 50 with
    | some current_atr, some historical_atr =>
        let ratio := if 0 < historical_atr then current_atr / historical_atr else 0
        ⟨decide (atr_threshold < ratio), current_atr, historical_atr, ratio⟩
    | _, _ => ⟨false, 0, 0, 0⟩

/-- Candle direction reported by `validate_body_wick`. -/
inductive Direct where
  | up | down | nodir
deriving DecidableEq

/-- Result record of `validate_body_wick`. -/
structure BodyWickResult where
  valid : Bool
  body_ratio : ℚ
  wick_ratio : ℚ
  direction : Direct
deriving DecidableEq

/-- `BreakoutEngine.validate_body_wick`: invalid on a zero full range
(guarding the division); else valid iff the body fraction meets
`min_body_ratio` and the wick opposite the candle direction stays within
`max_wick_ratio`. -/
def validate_body_wick (min_body_ratio max_wick_ratio : ℚ) (candle : Candle) : BodyWickResult :=
  let full_range := candle.high - candle.low
  if full_range = 0 then ⟨false, 0, 0, Direct.nodir⟩
  else
    let body_range := |candle.close - candle.open_price|
    let body_ratio := body_range / full_range
    if candle.open_price < candle.close then
      let opposite_wick_ratio := (candle.open_price - candle.low) / full_range
      ⟨decide (min_body_ratio ≤ body_ratio) && decide (opposite_wick_ratio ≤ max_wick_ratio),
       body_ratio, opposite_wick_ratio, Direct.up⟩
    else
      let opposite_wick_ratio := (candle.high - candle.open_price) / full_range
      ⟨decide (min_body_ratio ≤ body_ratio) && decide (opposite_wick_ratio ≤ max_wick_ratio),
       body_ratio, opposite_wick_ratio, Direct.down⟩

/-- Breakout signal direction. -/
inductive Sig where
  | LONG | SHORT | NONE
deriving DecidableEq

/-- The detail record attached to a breakout decision. -/
structure BreakoutDetails where
  compression : CompressionResult
  atr_spike : SpikeResult
  body_wick : BodyWickResult
deriving DecidableEq

/-- Result record of `generate_breakout_signal` (`details := none` models
the empty details dict of the too-few-candles branch). -/
structure BreakoutResult where
  signal : Sig
  strength : ℚ
  details : Option BreakoutDetails
deriving DecidableEq

/-- `BreakoutEngine.generate_breakout_signal`: NONE below 20 candles;
else a LONG/SHORT signal only when compression, ATR spike and body/wick
validation all hold, with strength
`min 1 (spikeRatio / atr_threshold * bodyRatio)`. -/
def generate_breakout_signal (compression_window : ℕ)
    (atr_threshold min_body_ratio max_wick_ratio : ℚ)
    (candles : List Candle) : BreakoutResult :=
  if candles.length < 20 then ⟨Sig.NONE, 0, none⟩
  else
    let current_candle := atEnd candles 1
    let compression := detect_compression compression_window candles
    let atr_spike := detect_atr_spike atr_threshold candles
    let body_wick := validate_body_wick min_body_ratio max_wick_ratio current_candle
    if compression.compressed && atr_spike.spike && body_wick.valid then
      let signal := if body_wick.direction = Direct.up then Sig.LONG else Sig.SHORT
      ⟨signal, min 1 (atr_spike.ratio / atr_threshold * body_wick.body_ratio),
       some ⟨compression, atr_spike, body_wick⟩⟩
    else ⟨Sig.NONE, 0, some ⟨compression, atr_spike, body_wick⟩⟩

/-- A well-formed OHLC candle: positive prices, with open and close
inside the low/high range. -/
def validCandle (c : Candle) : Prop :=
  0 < c.low ∧ c.low ≤ c.open_price ∧ c.open_price ≤ c.high ∧
    c.low ≤ c.close ∧ c.close ≤ c.high

/-- A pattern result whose confidence lies in [0,1] whenever the pattern
is detected. -/
def goodPattern (p : PatternResult) : Prop :=
  p.detected = true → 0 ≤ p.confidence ∧ p.confidence ≤ 1

instance (c : Candle) : Decidable (validCandle c) := by
  unfold validCandle
  infer_instance

/- ## Helper lemmas -/

lemma atEnd_mem (candles : List Candle) (k : ℕ) (h1 : 1 ≤ k) (h2 : k ≤ candles.length) :
    atEnd candles k ∈ candles := by
  unfold atEnd
  have h : candles.length - k < candles.length := by omega
  rw [List.getD_eq_getElem candles default h]
  exact List.getElem_mem h

lemma qAtEnd_mem (values : List ℚ) (k : ℕ) (h1 : 1 ≤ k) (h2 : k ≤ values.length) :
    qAtEnd values k ∈ values := by
  unfold qAtEnd
  have h : values.length - k < values.length := by omega
  rw [List.getD_eq_getElem values 0 h]
  exact List.getElem_mem h

lemma validCandle_low_le_high (c : Candle) (h : validCandle c) : c.low ≤ c.high :=
  h.2.1.trans h.2.2.1

lemma validCandle_high_pos (c : Candle) (h : validCandle c) : 0 < c.high :=
  h.1.trans_le (validCandle_low_le_high c h)

lemma foldl_max_mem (x : ℚ) (xs : List ℚ) : xs.foldl max x ∈ x :: xs := by
  induction xs generalizing x with
  | nil => simp
  | cons y ys ih =>
    simp only [List.foldl_cons]
    rcases List.mem_cons.mp (ih (max x y)) with h1 | h1
    · rw [h1]
      rcases max_choice x y with h2 | h2 <;> rw [h2] <;> simp
    · simp [h1]

lemma foldl_min_mem (x : ℚ) (xs : List ℚ) : xs.foldl min x ∈ x :: xs := by
  induction xs generalizing x with
  | nil => simp
  | cons y ys ih =>
    simp only [List.foldl_cons]
    rcases List.mem_cons.mp (ih (min x y)) with h1 | h1
    · rw [h1]
      rcases min_choice x y with h2 | h2 <;> rw [h2] <;> simp
    · simp [h1]

lemma listMax_mem (l : List ℚ) (h : l ≠ []) : listMax l ∈ l := by
  cases l with
  | nil => exact absurd rfl h
  | cons x xs =>
    simp only [listMax]
    exact foldl_max_mem x xs

lemma listMin_mem (l : List ℚ) (h : l ≠ []) : listMin l ∈ l := by
  cases l with
  | nil => exact absurd rfl h
  | cons x xs =>
    simp only [listMin]
    exact foldl_min_mem x xs

lemma good_detect_engulfing (candles : List Candle) (hv : ∀ c ∈ candles, validCandle c) :
    goodPattern (detect_engulfing candles) := by
  simp only [goodPattern, detect_engulfing]
  split_ifs with h1 h2 h3
  · simp
  · simp
  · intro _
    have hp := hv _ (atEnd_mem candles 2 (by omega) (by omega))
    have hr : 0 < (atEnd candles 2).high - (atEnd candles 2).low :=
      (sub_nonneg.mpr (validCandle_low_le_high _ hp)).lt_of_ne (fun he => h2 he.symm)
    exact ⟨le_min (by norm_num) (div_nonneg (abs_nonneg _) hr.le), min_le_left _ _⟩
  · simp

lemma good_detect_pinbar (candles : List Candle) (hv : ∀ c ∈ candles, validCandle c) :
    goodPattern (detect_pinbar candles) := by
  simp only [goodPattern, detect_pinbar]
  split_ifs with h1 h2 h3 h4 h5 h6 <;> try simp
  all_goals
    have hp := hv _ (atEnd_mem candles 1 (by omega) (by omega))
  all_goals
    have hr : 0 < (atEnd candles 1).high - (atEnd candles 1).low :=
      (sub_nonneg.mpr (validCandle_low_le_high _ hp)).lt_of_ne (fun he => h2 he.symm)
  all_goals
    have hbr : 0 ≤ |(atEnd candles 1).close - (atEnd candles 1).open_price| /
        ((atEnd candles 1).high - (atEnd candles 1).low) :=
      div_nonneg (abs_nonneg _) hr.le
  · have hm0 : (0:ℚ) ≤ 1 ⊓ (((atEnd candles 1).high - (atEnd candles 1).close) /
        ((atEnd candles 1).high - (atEnd candles 1).low)) :=
      le_min (by norm_num) (by linarith)
    have hm1 : 1 ⊓ (((atEnd candles 1).high - (atEnd candles 1).close) /
        ((atEnd candles 1).high - (atEnd candles 1).low)) ≤ 1 := min_le_left _ _
    constructor
    · exact mul_nonneg hm0 (by linarith)
    · nlinarith
  · have hm0 : (0:ℚ) ≤ 1 ⊓ (((atEnd candles 1).close - (atEnd candles 1).low) /
        ((atEnd candles 1).high - (atEnd candles 1).low)) :=
      le_min (by norm_num) (by linarith)
    have hm1 : 1 ⊓ (((atEnd candles 1).close - (atEnd candles 1).low) /
        ((atEnd candles 1).high - (atEnd candles 1).low)) ≤ 1 := min_le_left _ _
    constructor
    · exact mul_nonneg hm0 (by linarith)
    · nlinarith

lemma good_detect_morning_star (candles : List Candle) :
    goodPattern (detect_morning_star candles) := by
  simp only [goodPattern, detect_morning_star]
  split_ifs with h1 h2
  · simp
  · intro _
    exact ⟨le_max_of_le_left (by norm_num), max_le (by norm_num) (min_le_left _ _)⟩
  · simp

lemma good_detect_evening_star (candles : List Candle) :
    goodPattern (detect_evening_star candles) := by
  simp only [goodPattern, detect_evening_star]
  split_ifs with h1 h2
  · simp
  · intro _
    exact ⟨le_max_of_le_left (by norm_num), max_le (by norm_num) (min_le_left _ _)⟩
  · simp

lemma listMax_pos_of_mem_pos (l : List ℚ) (hne : l ≠ []) (h : ∀ x ∈ l, 0 < x) :
    0 < listMax l := h _ (listMax_mem l hne)

lemma listMin_pos_of_mem_pos (l : List ℚ) (hne : l ≠ []) (h : ∀ x ∈ l, 0 < x) :
    0 < listMin l := h _ (listMin_mem l hne)

lemma good_detect_break_of_structure (candles : List Candle)
    (hv : ∀ c ∈ candles, validCandle c) :
    goodPattern (detect_break_of_structure candles) := by
  simp only [goodPattern, detect_break_of_structure]
  split_ifs with h1 h2 h3
  · simp
  · intro _
    have hpos : 0 < listMax ((candles.drop (candles.length - 5)).map
        (fun c => c.high)).dropLast := by
      apply listMax_pos_of_mem_pos
      · have : ((candles.drop (candles.length - 5)).map (fun c => c.high)).dropLast.length = 4 := by
          simp [List.length_dropLast, List.length_map, List.length_drop]
          omega
        intro hnil
        rw [hnil] at this
        simp at this
      · intro x hx
        have hx' := List.dropLast_subset _ hx
        rcases List.mem_map.mp hx' with ⟨c, hc, hcx⟩
        have hcc := hv c (List.drop_subset _ _ hc)
        rw [← hcx]
        exact validCandle_high_pos c hcc
    exact ⟨le_min (by norm_num) (div_nonneg (by linarith [h2.1]) hpos.le), min_le_left _ _⟩
  · intro _
    have hpos : 0 < listMin ((candles.drop (candles.length - 5)).map
        (fun c => c.low)).dropLast := by
      apply listMin_pos_of_mem_pos
      · have : ((candles.drop (candles.length - 5)).map (fun c => c.low)).dropLast.length = 4 := by
          simp [List.length_dropLast, List.length_map, List.length_drop]
          omega
        intro hnil
        rw [hnil] at this
        simp at this
      · intro x hx
        have hx' := List.dropLast_subset _ hx
        rcases List.mem_map.mp hx' with ⟨c, hc, hcx⟩
        have hcc := hv c (List.drop_subset _ _ hc)
        rw [← hcx]
        exact hcc.1
    exact ⟨le_min (by norm_num) (div_nonneg (by linarith [h3.1]) hpos.le), min_le_left _ _⟩
  · simp

lemma good_detect_fair_value_gap (candles : List Candle)
    (hv : ∀ c ∈ candles, validCandle c) :
    goodPattern (detect_fair_value_gap candles) := by
  simp only [goodPattern, detect_fair_value_gap]
  split_ifs with h1 h2 h3
  · simp
  · intro _
    have hp := hv _ (atEnd_mem candles 2 (by omega) (by omega))
    have hph : 0 < (atEnd candles 2).high := validCandle_high_pos _ hp
    exact ⟨le_min (by norm_num) (div_nonneg (by linarith) hph.le), min_le_left _ _⟩
  · intro _
    have hp := hv _ (atEnd_mem candles 2 (by omega) (by omega))
    exact ⟨le_min (by norm_num) (div_nonneg (by linarith) hp.1.le), min_le_left _ _⟩
  · simp

lemma good_detect_ema_retest (candles : List Candle) (ema_values : List ℚ)
    (he : ∀ x ∈ ema_values, 0 < x) :
    goodPattern (detect_ema_retest candles ema_values) := by
  simp only [goodPattern, detect_ema_retest]
  split_ifs with h1 h2
  · simp
  · intro _
    push_neg at h1
    have hce : 0 < qAtEnd ema_values 1 :=
      he _ (qAtEnd_mem ema_values 1 (by omega) (by omega))
    have hd : 0 ≤ |(atEnd candles 1).close - qAtEnd ema_values 1| / qAtEnd ema_values 1 :=
      div_nonneg (abs_nonneg _) hce.le
    constructor
    · have : min 1 (|(atEnd candles 1).close - qAtEnd ema_values 1| / qAtEnd ema_values 1
          / (1/100)) ≤ 1 := min_le_left _ _
      linarith
    · have : 0 ≤ min 1 (|(atEnd candles 1).close - qAtEnd ema_values 1| / qAtEnd ema_values 1
          / (1/100)) := le_min (by norm_num) (div_nonneg hd (by norm_num))
      linarith
  · simp

lemma good_srScan (current previous : Candle) (zones : List Zone)
    (hz : ∀ z ∈ zones, 0 ≤ z.strength) :
    goodPattern (srScan current previous zones) := by
  induction zones with
  | nil => simp [srScan, goodPattern]
  | cons z zs ih =>
    simp only [srScan]
    split_ifs with h
    · intro _
      refine ⟨le_min (by norm_num) (mul_nonneg (hz z (List.mem_cons_self _ _)) (by norm_num)),
        min_le_left _ _⟩
    · exact ih (fun w hw => hz w (List.mem_cons_of_mem _ hw))

lemma good_detect_sr_retest (candles : List Candle) (sr_zones : List Zone)
    (hz : ∀ z ∈ sr_zones, 0 ≤ z.strength) :
    goodPattern (detect_sr_retest candles sr_zones) := by
  simp only [detect_sr_retest]
  split_ifs with h1
  · simp [goodPattern]
  · exact good_srScan _ _ _ hz

lemma confSum_bounds (l : List (PName × PatternResult)) (h : ∀ p ∈ l, goodPattern p.2) :
    0 ≤ ((l.filter (fun p => p.2.detected)).map (fun p => p.2.confidence)).sum ∧
    ((l.filter (fun p => p.2.detected)).map (fun p => p.2.confidence)).sum ≤
      ((l.filter (fun p => p.2.detected)).length : ℚ) := by
  induction l with
  | nil => simp
  | cons p rest ih =>
    have hrest := ih (fun q hq => h q (List.mem_cons_of_mem _ hq))
    by_cases hd : p.2.detected = true
    · have hb := h p (List.mem_cons_self _ _) hd
      simp only [List.filter_cons, hd, if_true, List.map_cons, List.sum_cons,
        List.length_cons]
      push_cast
      constructor <;> linarith [hrest.1, hrest.2, hb.1, hb.2]
    · simp only [List.filter_cons, hd]
      simpa using hrest

lemma evaluatedPatterns_good (candles : List Candle) (sr_zones : Option (List Zone))
    (ema_values : Option (List ℚ))
    (hv : ∀ c ∈ candles, validCandle c)
    (he : ∀ l, ema_values = some l → ∀ x ∈ l, 0 < x)
    (hz : ∀ l, sr_zones = some l → ∀ z ∈ l, 0 ≤ z.strength) :
    ∀ p ∈ evaluatedPatterns candles sr_zones ema_values, goodPattern p.2 := by
  intro p hp
  simp only [evaluatedPatterns, List.mem_append] at hp
  rcases hp with (hp | hp) | hp
  · simp only [List.mem_cons, List.not_mem_nil, or_false] at hp
    rcases hp with h | h | h | h | h | h <;> subst h
    · exact good_detect_engulfing candles hv
    · exact good_detect_pinbar candles hv
    · exact good_detect_morning_star candles
    · exact good_detect_evening_star candles
    · exact good_detect_break_of_structure candles hv
    · exact good_detect_fair_value_gap candles hv
  · cases ema_values with
    | none => simp at hp
    | some l =>
      by_cases hl : 0 < l.length
      · simp only [hl, if_true, List.mem_singleton] at hp
        subst hp
        exact good_detect_ema_retest candles l (he l rfl)
      · simp [hl] at hp
  · cases sr_zones with
    | none => simp at hp
    | some l =>
      by_cases hl : 0 < l.length
      · simp only [hl, if_true, List.mem_singleton] at hp
        subst hp
        exact good_detect_sr_retest candles l (hz l rfl)
      · simp [hl] at hp

lemma evaluatedPatterns_length (candles : List Candle) (sr_zones : Option (List Zone))
    (ema_values : Option (List ℚ)) :
    (evaluatedPatterns candles sr_zones ema_values).length =
      6 + (match ema_values with
           | some l => if 0 < l.length then 1 else 0
           | none => 0) +
        (match sr_zones with
         | some l => if 0 < l.length then 1 else 0
         | none => 0) := by
  rcases ema_values with _ | l1 <;> rcases sr_zones with _ | l2
  · simp [evaluatedPatterns]
  · by_cases h2 : 0 < l2.length <;> simp [evaluatedPatterns, h2]
  · by_cases h1 : 0 < l1.length <;> simp [evaluatedPatterns, h1]
  · by_cases h1 : 0 < l1.length <;> by_cases h2 : 0 < l2.length <;>
      simp [evaluatedPatterns, h1, h2]

/- ## Theorems -/

/-- C1 (counterexample): with the default configuration
(balance 10000, risk 1.75%, minimum lot 0.001), at entry 100 and stop
loss 97 `position_size` does not return
`max (riskAmount / slDistance) minLot = 175/3`: the code rounds the
result to 8 decimal places, so it returns 58.33333333 instead. -/
theorem position_size_not_exact_max :
    position_size 10000 (7/4) (1/1000) 100 97 ≠
      max (10000 * ((7/4) / 100) / |(100 : ℚ) - 97|) (1/1000) := by
  norm_num [position_size, round8, roundHalfEven]

/-- C1 (amended): `position_size` returns 0 when entry equals stop loss,
and otherwise `max ((balance × riskPercent/100) / |entry − stopLoss|)
minLot` rounded half-to-even at 8 decimal places; in particular for
balance 10000, riskPercent 1.75, entry 100, stopLoss 95 it returns
exactly 35 (well within ±0.01). -/
theorem position_size_formula :
    (∀ b r m e s : ℚ, e = s → position_size b r m e s = 0) ∧
    (∀ b r m e s : ℚ, e ≠ s →
      position_size b r m e s = round8 (max (b * (r / 100) / |e - s|) m)) ∧
    position_size 10000 (7/4) (1/1000) 100 95 = 35 ∧
    |position_size 10000 (7/4) (1/1000) 100 95 - 35| ≤ 1/100 := by
  refine ⟨fun b r m e s h => by simp [position_size, h], fun b r m e s h => by
    simp [position_size, h], ?_, ?_⟩
  · norm_num [position_size, round8, roundHalfEven]
  · norm_num [position_size, round8, roundHalfEven]

/-- C1 (witness for `position_size_formula`). -/
theorem position_size_formula_witness :
    position_size 10000 (7/4) (1/1000) 100 100 = 0 ∧
    position_size 10000 (7/4) (1/1000) 100 97 =
      round8 (max (10000 * ((7/4) / 100) / |(100 : ℚ) - 97|) (1/1000)) :=
  ⟨position_size_formula.1 10000 (7/4) (1/1000) 100 100 rfl,
   position_size_formula.2.1 10000 (7/4) (1/1000) 100 97 (by decide)⟩

/-- C2: `check_daily_loss_limit` blocks exactly when the accumulated
daily PnL has fallen to or below −balance × maxDailyLossPct/100; with
balance 10000 and maxDailyLossPct 5, after tracking −200 and −150 the
accumulation is −350 and trading is still allowed, and after further
tracking −300 it is −650 ≤ −500 and trading is blocked. -/
theorem daily_loss_breaker :
    (∀ b p a : ℚ, check_daily_loss_limit b p a = false ↔ a ≤ -(b * (p / 100))) ∧
    check_daily_loss_limit 10000 5
      ((track_daily_pnl 0 (-150) (track_daily_pnl 0 (-200)
        ⟨0, 0, DiskFile.ok (freshDaily 0)⟩)).daily_loss_accumulation) = true ∧
    check_daily_loss_limit 10000 5
      ((track_daily_pnl 0 (-300) (track_daily_pnl 0 (-150) (track_daily_pnl 0 (-200)
        ⟨0, 0, DiskFile.ok (freshDaily 0)⟩))).daily_loss_accumulation) = false := by
  refine ⟨fun b p a => ?_, ?_, ?_⟩
  · by_cases h : a ≤ -(b * (p / 100))
    · simp [check_daily_loss_limit, h]
    · simp [check_daily_loss_limit, h]
  · norm_num [check_daily_loss_limit, track_daily_pnl, freshDaily]
  · norm_num [check_daily_loss_limit, track_daily_pnl, freshDaily]

/-- C3: with limit 2 and counter 0, the first
`increment_consecutive_losses` sets the counter to 1 and allows
continuation, the second sets it to 2 and blocks; and across every
`RiskManager` operation, a non-zero counter becomes 0 only through
`reset_consecutive_losses`. -/
theorem consecutive_loss_breaker :
    increment_consecutive_losses 2 0 = (true, 1) ∧
    increment_consecutive_losses 2 1 = (false, 2) ∧
    (∀ (today maxc : ℕ) (op : RMOp) (s : RMState),
      s.consecutive_loss_counter ≠ 0 →
      (rmStep today maxc op s).consecutive_loss_counter = 0 → op = RMOp.reset) := by
  refine ⟨by decide, by decide, fun today maxc op s hne h0 => ?_⟩
  cases op <;>
    simp [rmStep, track_daily_pnl, increment_consecutive_losses] at h0 <;>
    first
      | rfl
      | exact absurd h0 hne

/-- C3 (witness for `consecutive_loss_breaker`): the only-reset clause
instantiated at `reset_consecutive_losses` on counter 1. -/
theorem consecutive_loss_breaker_witness : RMOp.reset = RMOp.reset :=
  consecutive_loss_breaker.2.2 0 2 RMOp.reset ⟨1, 0, DiskFile.missing⟩ (by decide) rfl

/-- C6 (counterexample): against a 50-point ceiling, bid 100 and ask
100.5 give a spread of exactly 50 points; the code rejects the quote
(`spread_filter` accepts only strictly below the maximum) while the
claim's rejection predicate — spread strictly exceeding the ceiling, or
non-positive or crossed quotes — does not hold there. -/
theorem spread_filter_boundary_counterexample :
    spread_filter 50 100 (201/2) = false ∧ ¬ spread_rejects_spec 50 100 (201/2) := by
  constructor
  · norm_num [spread_filter]
  · norm_num [spread_rejects_spec]

/-- C6 (amended): `spread_filter` rejects exactly when the spread in
points reaches or exceeds the ceiling, or bid or ask is non-positive, or
bid exceeds ask; with a 50-point ceiling, bid 100 / ask 100.005 (0.5
points) is accepted and bid 100 / ask 101 (100 points) is rejected. -/
theorem spread_filter_rejection :
    (∀ m bid ask : ℚ, spread_filter m bid ask = false ↔
      bid ≤ 0 ∨ ask ≤ 0 ∨ bid > ask ∨ m ≤ (ask - bid) / bid * 10000) ∧
    spread_filter 50 100 (20001/200) = true ∧
    spread_filter 50 100 101 = false := by
  refine ⟨fun m bid ask => ?_, by norm_num [spread_filter], by norm_num [spread_filter]⟩
  by_cases h : bid ≤ 0 ∨ ask ≤ 0 ∨ bid > ask
  · simp [spread_filter, h]
    tauto
  · push_neg at h
    simp [spread_filter, h.1.not_le, h.2.1.not_le, h.2.2.not_lt, not_lt]

/-- C9: the three durable-state readers yield their safe defaults (empty
trade list, empty position list, zero daily accumulation) on a missing
file and on an unreadable or unparseable one, and — being total
functions — never raise to the caller. -/
theorem state_readers_safe_defaults :
    (∀ f : DiskFile (List TradeRec),
      f = DiskFile.missing ∨ f = DiskFile.corrupt → load_trade_history f = []) ∧
    (∀ f : DiskFile (List PositionRec),
      f = DiskFile.missing ∨ f = DiskFile.corrupt → load_open_positions f = []) ∧
    (∀ (today : ℕ) (f : DiskFile DailyData),
      f = DiskFile.missing ∨ f = DiskFile.corrupt → load_daily_pnl today f = 0) := by
  refine ⟨fun f h => ?_, fun f h => ?_, fun today f h => ?_⟩ <;>
    rcases h with h | h <;> subst h <;> rfl

/-- C9 (witness for `state_readers_safe_defaults`). -/
theorem state_readers_safe_defaults_witness :
    load_trade_history DiskFile.missing = [] ∧
    load_open_positions DiskFile.corrupt = [] ∧
    load_daily_pnl 7 DiskFile.corrupt = 0 :=
  ⟨state_readers_safe_defaults.1 DiskFile.missing (Or.inl rfl),
   state_readers_safe_defaults.2.1 DiskFile.corrupt (Or.inr rfl),
   state_readers_safe_defaults.2.2 7 DiskFile.corrupt (Or.inr rfl)⟩

/-- C10: for every candle list of length at least 20 whose latest candle
has zero full range (high = low), `generate_breakout_signal` returns
signal NONE with strength 0, because `validate_body_wick` reports the
candle invalid instead of dividing by the zero range. -/
theorem degenerate_candle_no_breakout :
    ∀ (compression_window : ℕ) (atr_threshold min_body_ratio max_wick_ratio : ℚ)
      (candles : List Candle),
      20 ≤ candles.length →
      (atEnd candles 1).high = (atEnd candles 1).low →
      (generate_breakout_signal compression_window atr_threshold min_body_ratio
          max_wick_ratio candles).signal = Sig.NONE ∧
      (generate_breakout_signal compression_window atr_threshold min_body_ratio
          max_wick_ratio candles).strength = 0 := by
  intro cw thr mbr mwr candles hlen hdeg
  have h20 : ¬ candles.length < 20 := by omega
  have hbw : (validate_body_wick mbr mwr (atEnd candles 1)).valid = false := by
    simp [validate_body_wick, hdeg]
  simp [generate_breakout_signal, h20, hbw]

/-- C10 (witness for `degenerate_candle_no_breakout`): 20 doji candles
with high = low = 1. -/
theorem degenerate_candle_no_breakout_witness :
    (generate_breakout_signal 20 (3/2) (3/5) (1/4)
        (List.replicate 20 (⟨1, 1, 1, 1⟩ : Candle))).signal = Sig.NONE ∧
    (generate_breakout_signal 20 (3/2) (3/5) (1/4)
        (List.replicate 20 (⟨1, 1, 1, 1⟩ : Candle))).strength = 0 :=
  degenerate_candle_no_breakout 20 (3/2) (3/5) (1/4)
    (List.replicate 20 ⟨1, 1, 1, 1⟩) (by decide) rfl

/-- C4: when the exchange call fails on every attempt, the retry protocol
with maxRetries 3 makes exactly 3 attempts, waits
`min (initialDelay × backoffMultiplier^(attempt−1)) maxDelay` plus the
drawn jitter between consecutive attempts, and returns the explicit
absent-order result `none` (the model is a total function, so no failure
propagates to the caller). -/
theorem retry_exhaustion :
    ∀ (α : Type) (call : ℕ → Option α) (jit : ℕ → ℚ)
      (initial_delay max_delay backoff_multiplier : ℚ),
      (∀ a, call a = none) →
      submitOrderWithRetry α call jit 3 initial_delay max_delay backoff_multiplier =
        ⟨none, 3, [min (initial_delay * backoff_multiplier ^ 0) max_delay + jit 1,
                   min (initial_delay * backoff_multiplier ^ 1) max_delay + jit 2]⟩ := by
  intro α call jit i M m h
  simp [submitOrderWithRetry, retryLoop, h]

/-- C4 (witness for `retry_exhaustion`): the always-failing oracle with
zero jitter, initial delay 1, max delay 5, multiplier 2. -/
theorem retry_exhaustion_witness :
    submitOrderWithRetry ℕ (fun _ => none) (fun _ => 0) 3 1 5 2 =
      ⟨none, 3, [min ((1 : ℚ) * 2 ^ 0) 5 + 0, min ((1 : ℚ) * 2 ^ 1) 5 + 0]⟩ :=
  retry_exhaustion ℕ (fun _ => none) (fun _ => 0) 1 5 2 (fun _ => rfl)

/-- C5: for all unit samples behind the two uniform draws, the target-1
percentage lies in [0.28, 0.35], the target-2 percentage in [0.38, 0.42],
and the three percentages sum exactly to 1. -/
theorem partial_close_split :
    ∀ u1 u2 : ℚ, 0 ≤ u1 → u1 ≤ 1 → 0 ≤ u2 → u2 ≤ 1 →
      28/100 ≤ (randomizePartialClosePercentages u1 u2).1 ∧
      (randomizePartialClosePercentages u1 u2).1 ≤ 35/100 ∧
      38/100 ≤ (randomizePartialClosePercentages u1 u2).2.1 ∧
      (randomizePartialClosePercentages u1 u2).2.1 ≤ 42/100 ∧
      (randomizePartialClosePercentages u1 u2).1 +
        (randomizePartialClosePercentages u1 u2).2.1 +
        (randomizePartialClosePercentages u1 u2).2.2 = 1 := by
  intro u1 u2 h1 h2 h3 h4
  simp only [randomizePartialClosePercentages, uniformDraw]
  refine ⟨by nlinarith, by nlinarith, by nlinarith, by nlinarith, by ring⟩

/-- C5 (witness for `partial_close_split`): the extreme draws u1 = 0,
u2 = 1. -/
theorem partial_close_split_witness :
    28/100 ≤ (randomizePartialClosePercentages 0 1).1 ∧
    (randomizePartialClosePercentages 0 1).1 ≤ 35/100 ∧
    38/100 ≤ (randomizePartialClosePercentages 0 1).2.1 ∧
    (randomizePartialClosePercentages 0 1).2.1 ≤ 42/100 ∧
    (randomizePartialClosePercentages 0 1).1 + (randomizePartialClosePercentages 0 1).2.1 +
      (randomizePartialClosePercentages 0 1).2.2 = 1 :=
  partial_close_split 0 1 (by decide) (by decide) (by decide) (by decide)

/-- C7: `update_zones` rebuilds the zone list (by swing detection and
clustering, resetting the new-candle counter) exactly when the candles
accumulated since the last rebuild — including the ones just submitted —
reach 100, or when no zones are cached; over any sequence of calls none
of which reaches that condition, the stored zone list is returned
unchanged while the counter accumulates the submitted candle counts. -/
theorem zones_rebuild_policy :
    (∀ (lookback : ℕ) (tol : ℚ) (min_touches : ℕ) (s : SRState) (candles : List Candle),
      100 ≤ s.candle_count + candles.length ∨ s.zones = [] →
      update_zones lookback tol min_touches s candles =
        ⟨0, cluster_zones tol min_touches (detect_swings lookback candles)⟩) ∧
    (∀ (lookback : ℕ) (tol : ℚ) (min_touches : ℕ)
      (calls : List (List Candle)) (s : SRState),
      s.zones ≠ [] →
      s.candle_count + (calls.map List.length).sum < 100 →
      calls.foldl (update_zones lookback tol min_touches) s =
        ⟨s.candle_count + (calls.map List.length).sum, s.zones⟩) := by
  constructor
  · intro lb tol mt s cs h
    simp [update_zones, h]
  · intro lb tol mt calls
    induction calls with
    | nil => intro s hz hc; simp
    | cons c rest ih =>
      intro s hz hc
      simp only [List.map_cons, List.sum_cons] at hc
      have hcond : ¬ (100 ≤ s.candle_count + c.length ∨ s.zones = []) := by
        push_neg
        exact ⟨by omega, hz⟩
      have hstep : update_zones lb tol mt s c = ⟨s.candle_count + c.length, s.zones⟩ := by
        simp [update_zones, hcond]
      have hrest := ih ⟨s.candle_count + c.length, s.zones⟩ hz (by simp; omega)
      simp only [List.foldl_cons, hstep, hrest, List.map_cons, List.sum_cons]
      simp
      omega

/-- C7 (witness for `zones_rebuild_policy`): a first-access rebuild on an
empty cache, and a no-rebuild call sequence on a cached zone with few new
candles. -/
theorem zones_rebuild_policy_witness :
    update_zones 3 (1/2000) 2 ⟨0, []⟩ [] =
      ⟨0, cluster_zones (1/2000) 2 (detect_swings 3 [])⟩ ∧
    [[(⟨1, 2, 1, 2⟩ : Candle)]].foldl (update_zones 3 (1/2000) 2)
        ⟨0, [⟨1, SwingKind.high, 2, 1⟩]⟩ =
      ⟨0 + ([[(⟨1, 2, 1, 2⟩ : Candle)]].map List.length).sum,
       [⟨1, SwingKind.high, 2, 1⟩]⟩ :=
  ⟨zones_rebuild_policy.1 3 (1/2000) 2 ⟨0, []⟩ [] (Or.inr rfl),
   zones_rebuild_policy.2 3 (1/2000) 2 [[⟨1, 2, 1, 2⟩]]
     ⟨0, [⟨1, SwingKind.high, 2, 1⟩]⟩ (by decide) (by decide)⟩

/-- C8: for well-formed candles, a positive moving-average series and
non-negatively-weighted zones, `calculate_confirmation_score` returns
`confirmationCount` = the number of detected patterns, and
`confirmationScore` = the sum of the detected confidences divided by the
number of patterns actually evaluated — the six always-run detectors plus
the moving-average retest and the zone retest only when their optional
inputs are supplied and non-empty, so unavailable-input patterns are
excluded from numerator and denominator alike — and the score always lies
in [0,1]. -/
theorem confirmation_score_spec :
    ∀ (min_confirmations : ℕ) (candles : List Candle)
      (sr_zones : Option (List Zone)) (ema_values : Option (List ℚ)),
      (∀ c ∈ candles, validCandle c) →
      (∀ l, ema_values = some l → ∀ x ∈ l, 0 < x) →
      (∀ l, sr_zones = some l → ∀ z ∈ l, 0 ≤ z.strength) →
      (calculate_confirmation_score min_confirmations candles sr_zones
          ema_values).confirmation_count =
        ((evaluatedPatterns candles sr_zones ema_values).filter
          (fun p => p.2.detected)).length ∧
      (calculate_confirmation_score min_confirmations candles sr_zones
          ema_values).confirmation_score =
        (((evaluatedPatterns candles sr_zones ema_values).filter
          (fun p => p.2.detected)).map (fun p => p.2.confidence)).sum /
          ((evaluatedPatterns candles sr_zones ema_values).length : ℚ) ∧
      (evaluatedPatterns candles sr_zones ema_values).length =
        6 + (match ema_values with
             | some l => if 0 < l.length then 1 else 0
             | none => 0) +
          (match sr_zones with
           | some l => if 0 < l.length then 1 else 0
           | none => 0) ∧
      0 ≤ (calculate_confirmation_score min_confirmations candles sr_zones
          ema_values).confirmation_score ∧
      (calculate_confirmation_score min_confirmations candles sr_zones
          ema_values).confirmation_score ≤ 1 := by
  intro mc candles zs es hv he hz
  have hgood := evaluatedPatterns_good candles zs es hv he hz
  have hlen := evaluatedPatterns_length candles zs es
  have h6 : 6 ≤ (evaluatedPatterns candles zs es).length := by
    rw [hlen]
    omega
  have hmax : max 1 (evaluatedPatterns candles zs es).length =
      (evaluatedPatterns candles zs es).length := Nat.max_eq_right (by omega)
  have hscore : (calculate_confirmation_score mc candles zs es).confirmation_score =
      (((evaluatedPatterns candles zs es).filter
        (fun p => p.2.detected)).map (fun p => p.2.confidence)).sum /
        ((evaluatedPatterns candles zs es).length : ℚ) := by
    simp [calculate_confirmation_score, hmax]
  have hsum := confSum_bounds (evaluatedPatterns candles zs es) hgood
  have hflen : ((((evaluatedPatterns candles zs es).filter
      (fun p => p.2.detected)).length : ℕ) : ℚ) ≤
      ((evaluatedPatterns candles zs es).length : ℚ) := by
    exact_mod_cast List.length_filter_le _ _
  have hlenpos : (0:ℚ) < ((evaluatedPatterns candles zs es).length : ℚ) := by
    exact_mod_cast (by omega : 0 < (evaluatedPatterns candles zs es).length)
  refine ⟨rfl, hscore, hlen, ?_, ?_⟩
  · rw [hscore]
    exact div_nonneg hsum.1 hlenpos.le
  · rw [hscore, div_le_one hlenpos]
    exact hsum.2.trans hflen

/-- C8 (witness for `confirmation_score_spec`): the empty candle list
with no optional inputs. -/
theorem confirmation_score_spec_witness :
    (calculate_confirmation_score 2 [] none none).confirmation_count =
      ((evaluatedPatterns [] none none).filter (fun p => p.2.detected)).length ∧
    (calculate_confirmation_score 2 [] none none).confirmation_score =
      (((evaluatedPatterns [] none none).filter
        (fun p => p.2.detected)).map (fun p => p.2.confidence)).sum /
        ((evaluatedPatterns [] none none).length : ℚ) ∧
    (evaluatedPatterns [] none none).length = 6 + 0 + 0 ∧
    0 ≤ (calculate_confirmation_score 2 [] none none).confirmation_score ∧
    (calculate_confirmation_score 2 [] none none).confirmation_score ≤ 1 :=
  confirmation_score_spec 2 [] none none (by simp)
    (fun l h => nomatch h) (fun l h => nomatch h)
